import Mathlib

/-!
Verification development for the `http-cache-semantics` Rust crate
(RFC 7234 cache-policy decision engine).

The crate's `src/lib.rs` contains:
  * four static directive tables (`STATUS_CODE_CACHEABLE_BY_DEFAULT`,
    `UNDERSTOOD_STATUSES`, `HOP_BY_HOP_HEADERS`,
    `EXCLUDED_FROM_REVALIDATION_UPDATE`) with concrete contents,
  * the `CacheOptions` struct with its `Default` implementation,
  * the public method signatures of `CachePolicy`
    (`is_storable`, `time_to_live : u32` in milliseconds,
    `is_cached_response_fresh`, `is_cached_response_valid(&mut self, ..)`,
    `update_response_headers`), all with `unimplemented!()` bodies,
  * an extensive test module describing the intended behaviour.

The tables, option defaults, and method signatures are embedded directly
from the source.  Method bodies that are `unimplemented!()` in the source
are modelled from the specification (each such definition carries a
`Modelled from the spec:` doc comment).  Times are modelled as
non-negative integer numbers of seconds; header containers are
association lists with case-insensitive name lookup, as required by the
specification's Headers collaborator contract.  String manipulation is
implemented by structural recursion over character lists so that every
definition evaluates inside the kernel.
-/

namespace HttpCache

/-- Lowercase every character of a character list. -/
def lowerChars (l : List Char) : List Char := l.map Char.toLower

/-- Case-insensitive string equality, used for all header-name
comparisons per the specification's Headers contract. -/
def eqCI (a b : String) : Bool := lowerChars a.data == lowerChars b.data

/-- Header container: an association list of (name, value) pairs.
The specification requires case-insensitive `get` on names. -/
def getHeader (hs : List (String × String)) (name : String) : Option String :=
  (hs.find? (fun kv => eqCI kv.1 name)).map Prod.snd

/-- Replace (or insert) a header, removing any previous entry with the
same case-insensitive name. -/
def setHeader (hs : List (String × String)) (name val : String) : List (String × String) :=
  (name, val) :: hs.filter (fun kv => !(eqCI kv.1 name))

/-- Trim ASCII whitespace from both ends of a character list. -/
def trimChars (l : List Char) : List Char :=
  ((l.dropWhile Char.isWhitespace).reverse.dropWhile Char.isWhitespace).reverse

/-- Split a character list at every occurrence of the separator. -/
def splitChars (sep : Char) : List Char → List (List Char)
  | [] => [[]]
  | c :: cs =>
    match splitChars sep cs with
    | [] => if c == sep then [[], []] else [[c]]
    | h :: t => if c == sep then [] :: h :: t else (c :: h) :: t

/-- Split a character list at the first occurrence of the separator,
returning the part before it and (when found) the part after it. -/
def breakOnFirst (sep : Char) : List Char → List Char × Option (List Char)
  | [] => ([], none)
  | c :: cs =>
    if c == sep then ([], some cs)
    else
      match breakOnFirst sep cs with
      | (k, v) => (c :: k, v)

/-- The double-quote character, used when stripping quoted directive values. -/
def quoteChar : Char := Char.ofNat 34

/-- Modelled from the spec: strip one pair of surrounding double quotes from
a directive value (the Cache-Control parser tolerates quoted numeric
values such as a quoted max-age). -/
def stripQuotesChars (l : List Char) : List Char :=
  if 2 ≤ l.length && l.head? == some quoteChar && l.getLast? == some quoteChar then
    (l.drop 1).dropLast
  else l

/-- Decimal value of one ASCII digit character. -/
def digitVal (c : Char) : Option Nat :=
  if 48 ≤ c.toNat && c.toNat ≤ 57 then some (c.toNat - 48) else none

/-- Value of a little-endian (least-significant-first) digit list. -/
def valRev : List Char → Option Nat
  | [] => some 0
  | c :: cs =>
    match digitVal c, valRev cs with
    | some d, some v => some (d + 10 * v)
    | _, _ => none

/-- Parse a character list as a non-negative decimal integer; anything
else yields `none`. -/
def charsToNat (l : List Char) : Option Nat :=
  if l.isEmpty then none else valRev l.reverse

/-- Modelled from the spec: parse a single `name[=value]` Cache-Control
segment.  Empty segments (stray commas) yield `none`; names are trimmed
and lowercased; values are trimmed and have surrounding quotes stripped. -/
def parseDirective (seg : List Char) : Option (String × Option String) :=
  let t := trimChars seg
  if t.isEmpty then none
  else
    match breakOnFirst (Char.ofNat 61) t with
    | (k, none) => some (String.mk (lowerChars (trimChars k)), none)
    | (k, some v) =>
      some (String.mk (lowerChars (trimChars k)),
            some (String.mk (stripQuotesChars (trimChars v))))

/-- Modelled from the spec: the Cache-Control parser.  The parser body is
absent from `src` (`CachePolicy` is unimplemented); per the specification
it tokenizes a possibly-absent header value into a directive map and never
fails: absent or unparseable input yields an empty map. -/
def parseCacheControl : Option String → List (String × Option String)
  | none => []
  | some s => (splitChars (Char.ofNat 44) s.data).filterMap parseDirective

/-- Directive lookup with last-occurrence-wins resolution, as the
specification's `CacheDirectives` invariant requires. -/
def dirLookup (m : List (String × Option String)) (k : String) : Option (Option String) :=
  (m.reverse.find? (fun kv => kv.1 == k)).map Prod.snd

/-- Whether a directive is present (with or without a value). -/
def hasDir (m : List (String × Option String)) (k : String) : Bool :=
  (dirLookup m k).isSome

/-- Numeric value of a directive; a missing value or a value that fails to
parse as a non-negative integer is treated as absent. -/
def dirNat (m : List (String × Option String)) (k : String) : Option Nat :=
  match dirLookup m k with
  | some (some v) => charsToNat v.data
  | _ => none

/-- Configuration options, embedded from `CacheOptions` in `src/lib.rs`
(the `f32` field `cache_heuristic` is modelled as a rational number). -/
structure CacheOptions where
  shared : Bool
  ignore_cargo_cult : Bool
  trust_server_date : Bool
  cache_heuristic : ℚ
  immutable_min_time_to_live : Nat
deriving DecidableEq, Repr

/-- The `Default` implementation for `CacheOptions`, embedded from
`impl Default for CacheOptions` in `src/lib.rs` (lines 116-127). -/
def defaultOptions : CacheOptions :=
  { shared := true
    ignore_cargo_cult := false
    trust_server_date := true
    cache_heuristic := (0.1 : ℚ)
    immutable_min_time_to_live := 86400 }

/-- Request snapshot: method, url and the caching-relevant headers. -/
structure Request where
  method : String
  url : String
  headers : List (String × String)
deriving DecidableEq, Repr

/-- Response snapshot: numeric status and the caching-relevant headers. -/
structure Response where
  status : Nat
  headers : List (String × String)
deriving DecidableEq, Repr

/-- A cache policy: options, request and response snapshots, and the
reception time captured once at construction.  `now` is the single
captured current-time value the queries are evaluated at. -/
structure CachePolicy where
  opts : CacheOptions
  req : Request
  res : Response
  response_time : Nat
  now : Nat
deriving DecidableEq, Repr

/-- Directive map of the request's Cache-Control header. -/
def request_directives (p : CachePolicy) : List (String × Option String) :=
  parseCacheControl (getHeader p.req.headers "cache-control")

/-- Modelled from the spec: directive map of the response.  The parser
handles "a Cache-Control (or Pragma) header value"; per the source tests a
Pragma `no-cache` is honoured only when no Cache-Control header is present
at all (`test_blank_cache_control_and_pragma_no_cache`). -/
def response_directives (p : CachePolicy) : List (String × Option String) :=
  match getHeader p.res.headers "cache-control" with
  | some cc => parseCacheControl (some cc)
  | none =>
    match getHeader p.res.headers "pragma" with
    | some pr =>
      if (parseCacheControl (some pr)).any (fun kv => kv.1 == "no-cache") then
        [("no-cache", none)]
      else []
    | none => []

/-- Status codes cacheable by default, embedded from
`STATUS_CODE_CACHEABLE_BY_DEFAULT` in `src/lib.rs` (lines 14-29). -/
def STATUS_CODE_CACHEABLE_BY_DEFAULT : List Nat :=
  [200, 203, 204, 206, 300, 301, 404, 405, 410, 414, 501]

/-- Status codes this engine understands, embedded from
`UNDERSTOOD_STATUSES` in `src/lib.rs` (lines 31-50). -/
def UNDERSTOOD_STATUSES : List Nat :=
  [200, 203, 204, 300, 301, 302, 303, 307, 308, 404, 405, 410, 414, 501]

/-- Hop-by-hop headers, embedded from `HOP_BY_HOP_HEADERS` in
`src/lib.rs` (lines 52-66). -/
def HOP_BY_HOP_HEADERS : List String :=
  ["date", "connection", "keep-alive", "proxy-authentication",
   "proxy-authorization", "te", "trailer", "transfer-encoding", "upgrade"]

/-- Headers excluded from the revalidation header merge, embedded from
`EXCLUDED_FROM_REVALIDATION_UPDATE` in `src/lib.rs` (lines 68-77). -/
def EXCLUDED_FROM_REVALIDATION_UPDATE : List String :=
  ["content-length", "content-encoding", "transfer-encoding", "content-range"]

/-- Modelled from the spec: parsing of HTTP dates (`Expires`, `Date`,
`Last-Modified`).  Date parsing belongs to the header collaborator and is
absent from `src`; it is abstracted here as parsing a non-negative integer
number of seconds, keeping the parse-or-degrade cascade the specification
describes. -/
def parseHttpDate (s : String) : Option Nat :=
  charsToNat (trimChars s.data)

/-- Modelled from the spec: the time base for `Expires`/heuristic
computations — the server `Date` header when `trust_server_date` is set and
the header parses, otherwise the captured `response_time`. -/
def serverDate (p : CachePolicy) : Nat :=
  if p.opts.trust_server_date then
    match (getHeader p.res.headers "date").bind parseHttpDate with
    | some d => d
    | none => p.response_time
  else p.response_time

/-- Modelled from the spec: heuristic freshness —
`cache_heuristic * (date_time - last_modified_time)` when `last-modified`
parses, else 0. -/
def heuristicFreshness (p : CachePolicy) : Nat :=
  match (getHeader p.res.headers "last-modified").bind parseHttpDate with
  | some lm =>
    Int.toNat (Rat.floor (p.opts.cache_heuristic * ((serverDate p : ℚ) - (lm : ℚ))))
  | none => 0

/-- Modelled from the spec: `age()` — the elapsed time since the response
was received plus the server-asserted `Age` header when it parses as a
non-negative integer; a malformed `Age` is treated as absent. -/
def age (p : CachePolicy) : Nat :=
  (p.now - p.response_time) +
    (match (getHeader p.res.headers "age").bind (fun s => charsToNat (trimChars s.data)) with
     | some a => a
     | none => 0)

/-- Modelled from the spec: whether the response carries an explicit
freshness signal (`s-maxage` under a shared cache, `max-age`, or an
`Expires` header). -/
def hasExplicitExpiration (p : CachePolicy) : Bool :=
  (p.opts.shared && hasDir (response_directives p) "s-maxage") ||
  hasDir (response_directives p) "max-age" ||
  (getHeader p.res.headers "expires").isSome

/-- Modelled from the spec: method storability — `GET`/`HEAD` by default,
other methods only with an explicit freshness signal on the response. -/
def methodStorable (p : CachePolicy) : Bool :=
  p.req.method == "GET" || p.req.method == "HEAD" || hasExplicitExpiration p

/-- Modelled from the spec: an `authorization` request header does not
disqualify storage if the response is explicitly `public`, carries
`s-maxage` or `max-age`, or is `must-revalidate`. -/
def allowsStoringAuthenticated (p : CachePolicy) : Bool :=
  hasDir (response_directives p) "public" ||
  hasDir (response_directives p) "max-age" ||
  hasDir (response_directives p) "s-maxage" ||
  hasDir (response_directives p) "must-revalidate"

/-- Modelled from the spec: the status-based storability gate.  The status
must be one the engine understands (`UNDERSTOOD_STATUSES`, from `src`);
partial-content (206) responses are never stored (spec 4.2), and per the
specification's boundary table (spec 8) 303 is likewise never storable
regardless of freshness signals (matching the source test
`assert_cached(false, 303)`). -/
def statusStorable (s : Nat) : Bool :=
  decide (s ∈ UNDERSTOOD_STATUSES) && s != 206 && s != 303

/-- Modelled from the spec: `is_storable()` — the body is
`unimplemented!()` in `src/lib.rs` (line 147); this follows spec 4.2:
no `no-store` on either side, a cacheable method, a storable status, not
`private` under a shared cache unless `public`, authorization handling,
no `set-cookie` under a shared cache unless `public`/`immutable`, and
either an explicit freshness signal, `public`, or a
cacheable-by-default status. -/
def is_storable (p : CachePolicy) : Bool :=
  !(hasDir (request_directives p) "no-store") &&
  methodStorable p &&
  statusStorable p.res.status &&
  !(hasDir (response_directives p) "no-store") &&
  (!p.opts.shared || !(hasDir (response_directives p) "private") ||
    hasDir (response_directives p) "public") &&
  (!p.opts.shared || (getHeader p.req.headers "authorization").isNone ||
    allowsStoringAuthenticated p) &&
  (!p.opts.shared || (getHeader p.res.headers "set-cookie").isNone ||
    hasDir (response_directives p) "public" ||
    hasDir (response_directives p) "immutable") &&
  (hasExplicitExpiration p || hasDir (response_directives p) "public" ||
    decide (p.res.status ∈ STATUS_CODE_CACHEABLE_BY_DEFAULT))

/-- Modelled from the spec: the freshness fallback applied when neither
`s-maxage` nor `max-age` yields a numeric value: the `immutable` floor,
else the `Expires`-based lifetime (floored at 0), else the heuristic. -/
def freshnessFallback (p : CachePolicy) : Nat :=
  if hasDir (response_directives p) "immutable" then
    max p.opts.immutable_min_time_to_live (heuristicFreshness p)
  else
    match (getHeader p.res.headers "expires").bind parseHttpDate with
    | some e => e - serverDate p
    | none => heuristicFreshness p

/-- Modelled from the spec: `max_age()` — the freshness lifetime.  An
unstorable response, a `no-cache` directive, or `Vary: *` force a
lifetime of 0 (spec 8 scenarios: `private` under a shared cache and
`no-store` yield `max_age() == 0`; `Vary: *` always forces staleness);
otherwise resolution follows spec 4.2: a numeric `s-maxage` under a
shared cache, else a numeric `max-age`, else the fallback chain.  A
directive value that fails to parse is treated as absent. -/
def max_age (p : CachePolicy) : Nat :=
  if !(is_storable p) || hasDir (response_directives p) "no-cache" then 0
  else if getHeader p.res.headers "vary" == some "*" then 0
  else
    match (if p.opts.shared then dirNat (response_directives p) "s-maxage" else none) with
    | some v => v
    | none =>
      match dirNat (response_directives p) "max-age" with
      | some v => v
      | none => freshnessFallback p

/-- Modelled from the spec: `is_stale()`.  The boundary is inclusive —
a response whose age has reached its lifetime is stale — as the source
tests require (`test_miss_max_age_equals_zero` expects `is_stale()` at
`max-age=0` and age 0). -/
def is_stale (p : CachePolicy) : Bool :=
  decide (max_age p ≤ age p)

/-- `time_to_live()`: the source declares `pub fn time_to_live(&self) -> u32`
returning milliseconds (`src/lib.rs` lines 150-158, "Returns approximate
time in _milliseconds_ until the response becomes stale", with staleness
described as `time_to_live() <= 0`).  The body is `unimplemented!()`; it is
modelled from the spec formula `max_age() - age()` clamped at zero to fit
the unsigned return type and scaled to milliseconds per the source's
declared unit. -/
def time_to_live (p : CachePolicy) : Nat :=
  1000 * (max_age p - age p)

/-- The specification's own description of `time_to_live()` (spec 4.2/6):
a signed number of seconds, `max_age() - age()`, possibly negative.  This
definition follows the spec's words and exists only to be compared against
the source-faithful `time_to_live`. -/
def spec_time_to_live (p : CachePolicy) : Int :=
  (max_age p : Int) - (age p : Int)

/-- Lowercase a string. -/
def lowerStr (s : String) : String := String.mk (lowerChars s.data)

/-- Modelled from the spec: the list of request-header names a response's
`Vary` header names — comma-separated, whitespace-tolerant,
case-insensitive names, empty entries dropped. -/
def parseVary (v : String) : List String :=
  (splitChars (Char.ofNat 44) v.data).filterMap
    (fun l =>
      let t := lowerChars (trimChars l)
      if t.isEmpty then none else some (String.mk t))

/-- Modelled from the spec: `vary_matches` — if the stored response's
`Vary` is `*`, no request ever matches; otherwise every header named in
`Vary` must agree (present-or-absent identically and equal in value)
between the original and new request. -/
def vary_matches (p : CachePolicy) (newReq : Request) : Bool :=
  match getHeader p.res.headers "vary" with
  | none => true
  | some v =>
    if v == "*" then false
    else (parseVary v).all
      (fun name => getHeader newReq.headers name == getHeader p.req.headers name)

/-- Modelled from the spec: the header merge performed on a valid
revalidation — the new response's headers are the base, and exactly the
headers in `EXCLUDED_FROM_REVALIDATION_UPDATE` are taken from the old
stored response instead. -/
def mergedHeaders (oldH newH : List (String × String)) : List (String × String) :=
  newH.filter (fun kv => !(decide (lowerStr kv.1 ∈ EXCLUDED_FROM_REVALIDATION_UPDATE))) ++
  oldH.filter (fun kv => decide (lowerStr kv.1 ∈ EXCLUDED_FROM_REVALIDATION_UPDATE))

/-- Modelled from the spec: whether a revalidation response is judged
valid — status 304, or the new response's validator equals the stored
one (`ETag` match, or `Last-Modified` match when `ETag` is absent on
either side). -/
def revalidation_valid (p : CachePolicy) (newRes : Response) : Bool :=
  newRes.status == 304 ||
  (match getHeader p.res.headers "etag", getHeader newRes.headers "etag" with
   | some a, some b => a == b
   | _, _ =>
     match getHeader p.res.headers "last-modified", getHeader newRes.headers "last-modified" with
     | some a, some b => a == b
     | _, _ => false)

/-- Modelled from the spec: the policy produced by the revalidation step.
On validity the new response's status/headers are the base with the
excluded headers taken from the old response; on invalidity the new
response fully replaces the old one with no merge.  The new policy's
reception time is the (single) current-time value. -/
def revalidated_policy (p : CachePolicy) (newReq : Request) (newRes : Response) : CachePolicy :=
  if revalidation_valid p newRes then
    { opts := p.opts
      req := newReq
      res := { status := newRes.status, headers := mergedHeaders p.res.headers newRes.headers }
      response_time := p.now
      now := p.now }
  else
    { opts := p.opts
      req := newReq
      res := newRes
      response_time := p.now
      now := p.now }

/-- The source declares `pub fn is_cached_response_valid(&mut self, ..) -> bool`
(`src/lib.rs` lines 184-191): it returns whether the cached body is still
valid and updates the policy state through the mutable receiver ("Use this
method to update the policy state after receiving a new response").  The
`&mut self` receiver is embedded by state passing: the second component is
the value held by the receiver after the call. -/
def is_cached_response_valid (p : CachePolicy) (newReq : Request) (newRes : Response) :
    Bool × CachePolicy :=
  (revalidation_valid p newRes, revalidated_policy p newReq newRes)

/-- Little-endian decimal digits of a natural number. -/
def natDigitsRev : Nat → List Char
  | 0 => []
  | n + 1 => Char.ofNat (48 + (n + 1) % 10) :: natDigitsRev ((n + 1) / 10)
decreasing_by exact Nat.div_lt_self (Nat.succ_pos n) (by decide)

/-- Decimal string of a natural number (the empty string denotes 0 in the
snapshot format below; display niceties are irrelevant to the model). -/
def natRepr (n : Nat) : String := String.mk (natDigitsRev n).reverse

/-- Parse back what `natRepr` produced. -/
def natParse (s : String) : Option Nat := valRev s.data.reverse

/-- The numeric code of one `Warning` entry: its first space-separated
token, when numeric. -/
def warningCode (w : List Char) : Option Nat :=
  charsToNat (breakOnFirst (Char.ofNat 32) (trimChars w)).1

/-- Modelled from the spec: drop the `Warning` entries whose code is in
the 1xx range, keeping the others. -/
def filterWarnings (v : String) : List String :=
  ((splitChars (Char.ofNat 44) v.data).map trimChars).filterMap
    (fun w =>
      match warningCode w with
      | some c => if 100 ≤ c && c ≤ 199 then none else some (String.mk w)
      | none => some (String.mk w))

/-- Join warning entries back together. -/
def joinComma : List String → String
  | [] => ""
  | [s] => s
  | s :: rest => s ++ ", " ++ joinComma rest

/-- The response headers with every hop-by-hop header removed. -/
def hopFiltered (p : CachePolicy) : List (String × String) :=
  p.res.headers.filter
    (fun kv => !(decide (lowerStr kv.1 ∈ HOP_BY_HOP_HEADERS)))

/-- The hop-filtered headers with 1xx `Warning` entries dropped (a
`Warning` header whose entries are all 1xx disappears entirely). -/
def warningFiltered (p : CachePolicy) : List (String × String) :=
  (hopFiltered p).filterMap
    (fun kv =>
      if eqCI kv.1 "warning" then
        match filterWarnings kv.2 with
        | [] => none
        | ws => some (kv.1, joinComma ws)
      else some kv)

/-- Modelled from the spec: `update_response_headers` — the body is
`unimplemented!()` in `src/lib.rs` (line 197); per spec 4.5 it removes all
hop-by-hop headers, drops 1xx `Warning` entries while keeping the others,
and overwrites the outgoing `Age` header from `age()`.  The result is the
filtered header list handed back to the caller. -/
def update_response_headers (p : CachePolicy) : List (String × String) :=
  setHeader (warningFiltered p) "age" (natRepr (age p))

/-- Boolean encoding for the snapshot format. -/
def encBool (b : Bool) : String := if b then "1" else "0"

/-- Boolean decoding for the snapshot format. -/
def decBool (s : String) : Bool := s == "1"

/-- Encode a header list into flat snapshot entries, in front of `rest`:
each header becomes a name entry and a value entry, closed by an end
marker.  All keys are fixed strings, so arbitrary header names and values
round-trip without escaping. -/
def encodeHeadersInto : List (String × String) → List (String × String) → List (String × String)
  | [], rest => ("e", "") :: rest
  | kv :: hs, rest => ("n", kv.1) :: ("v", kv.2) :: encodeHeadersInto hs rest

/-- Decode a header list from flat snapshot entries, returning the headers
and the remaining entries. -/
def decodeHeaders : List (String × String) → Option (List (String × String) × List (String × String))
  | [] => none
  | (k, _v) :: rest =>
    if k == "e" then some ([], rest)
    else if k == "n" then
      match rest with
      | [] => none
      | (k2, vl) :: rest2 =>
        if k2 == "v" then
          match decodeHeaders rest2 with
          | some (hs, rem) => some ((_v, vl) :: hs, rem)
          | none => none
        else none
    else none

/-- Modelled from the spec: `to_snapshot()` — a flat string-keyed map
sufficient to reconstruct the policy (spec 3/6 mandate no particular
format).  Persistence is absent from `src`; every field of the policy is
emitted as string entries. -/
def to_snapshot (p : CachePolicy) : List (String × String) :=
  ("method", p.req.method) ::
  ("url", p.req.url) ::
  ("status", natRepr p.res.status) ::
  ("response-time", natRepr p.response_time) ::
  ("now", natRepr p.now) ::
  ("shared", encBool p.opts.shared) ::
  ("ignore-cargo-cult", encBool p.opts.ignore_cargo_cult) ::
  ("trust-server-date", encBool p.opts.trust_server_date) ::
  ("heuristic-neg", encBool (decide (p.opts.cache_heuristic.num < 0))) ::
  ("heuristic-num", natRepr p.opts.cache_heuristic.num.natAbs) ::
  ("heuristic-den", natRepr p.opts.cache_heuristic.den) ::
  ("immutable-ttl", natRepr p.opts.immutable_min_time_to_live) ::
  encodeHeadersInto p.req.headers (encodeHeadersInto p.res.headers [])

/-- Modelled from the spec: `from_snapshot(map)` — reconstruct a policy
from the flat string map; malformed input yields `none` (fallible decode). -/
def from_snapshot (m : List (String × String)) : Option CachePolicy :=
  match m with
  | (k1, me) :: (k2, u) :: (k3, st) :: (k4, rt) :: (k5, nw) :: (k6, sh) :: (k7, ic) ::
    (k8, ts) :: (k9, hneg) :: (k10, hnum) :: (k11, hden) :: (k12, it) :: rest =>
    if k1 == "method" && k2 == "url" && k3 == "status" && k4 == "response-time" &&
       k5 == "now" && k6 == "shared" && k7 == "ignore-cargo-cult" &&
       k8 == "trust-server-date" && k9 == "heuristic-neg" && k10 == "heuristic-num" &&
       k11 == "heuristic-den" && k12 == "immutable-ttl" then
      match natParse st, natParse rt, natParse nw, natParse hnum, natParse hden, natParse it with
      | some stv, some rtv, some nwv, some hnv, some hdv, some itv =>
        match decodeHeaders rest with
        | some (reqH, rest2) =>
          match decodeHeaders rest2 with
          | some (resH, _) =>
            some { opts :=
                    { shared := decBool sh
                      ignore_cargo_cult := decBool ic
                      trust_server_date := decBool ts
                      cache_heuristic :=
                        (if decBool hneg then -((hnv : ℚ)) else (hnv : ℚ)) / (hdv : ℚ)
                      immutable_min_time_to_live := itv }
                   req := { method := me, url := u, headers := reqH }
                   res := { status := stv, headers := resH }
                   response_time := rtv
                   now := nwv }
          | none => none
        | none => none
      | _, _, _, _, _, _ => none
    else none
  | _ => none

/-! ## Helper lemmas -/

/-- Lookup in a header list starting with a known entry. -/
theorem getHeader_cons (n v : String) (hs : List (String × String)) (name : String) :
    getHeader ((n, v) :: hs) name =
      if eqCI n name then some v else getHeader hs name := by
  unfold getHeader
  cases h : eqCI n name <;> simp [List.find?_cons, h]

/-- Case-insensitive equality on equal strings holds. -/
theorem eqCI_self (n : String) : eqCI n n = true := by
  simp [eqCI]

/-- Case-insensitively equal names have equal lowercasings. -/
theorem lowerStr_eq_of_eqCI {a b : String} (h : eqCI a b = true) : lowerStr a = lowerStr b := by
  unfold eqCI at h
  unfold lowerStr
  rw [eq_of_beq h]

/-! ## C9: default configuration -/

/-- C9: the default `CacheOptions` configuration has `shared == true`,
`trust_server_date == true`, `ignore_cargo_cult == false`,
`cache_heuristic == 0.1` and `immutable_min_time_to_live == 86400`. -/
theorem c9_default_options :
    defaultOptions.shared = true ∧
    defaultOptions.trust_server_date = true ∧
    defaultOptions.ignore_cargo_cult = false ∧
    defaultOptions.cache_heuristic = (0.1 : ℚ) ∧
    defaultOptions.cache_heuristic = 1 / 10 ∧
    defaultOptions.immutable_min_time_to_live = 86400 :=
  ⟨rfl, rfl, rfl, rfl, by norm_num [defaultOptions], rfl⟩

/-! ## C1: never-storable status codes -/

/-- The status gate rejects every status in the claim's never-storable set. -/
theorem statusStorable_eq_false {s : Nat}
    (h : s = 206 ∨ s = 303 ∨ s = 304 ∨ (401 ≤ s ∧ s ≤ 403) ∨
         (500 ≤ s ∧ s ≤ 599 ∧ s ≠ 501)) :
    statusStorable s = false := by
  rcases h with h | h | h | h | h
  · subst h; decide
  · subst h; decide
  · subst h; decide
  · obtain ⟨h1, h2⟩ := h
    interval_cases s <;> decide
  · have hm : s ∉ UNDERSTOOD_STATUSES := by
      obtain ⟨h1, h2, h3⟩ := h
      simp only [UNDERSTOOD_STATUSES, List.mem_cons, List.not_mem_nil, or_false]
      omega
    simp [statusStorable, hm]

/-- C1: a policy whose response status is 206, 303, 304, 401-403, or a 5xx
other than 501 is never storable, regardless of any freshness directives
on the response. -/
theorem c1_never_storable (p : CachePolicy)
    (h : p.res.status = 206 ∨ p.res.status = 303 ∨ p.res.status = 304 ∨
         (401 ≤ p.res.status ∧ p.res.status ≤ 403) ∨
         (500 ≤ p.res.status ∧ p.res.status ≤ 599 ∧ p.res.status ≠ 501)) :
    is_storable p = false := by
  have hs := statusStorable_eq_false h
  simp [is_storable, hs]

/-- A partial-content response carrying both `public` and `max-age`. -/
def c1PartialPolicy : CachePolicy :=
  { opts := defaultOptions
    req := { method := "GET", url := "/", headers := [] }
    res := { status := 206,
             headers := [("content-range", "bytes 100-100/200"),
                         ("cache-control", "public, max-age=60")] }
    response_time := 0
    now := 0 }

/-- C1 witness: the 206 response with explicit freshness directives is not
storable. -/
theorem c1_never_storable_witness : is_storable c1PartialPolicy = false :=
  c1_never_storable c1PartialPolicy (Or.inl rfl)

/-! ## C3: time_to_live unit and sign -/

/-- A policy that is already stale: `max-age=100` but `Age: 101`. -/
def ttlStalePolicy : CachePolicy :=
  { opts := defaultOptions
    req := { method := "GET", url := "/", headers := [] }
    res := { status := 200,
             headers := [("cache-control", "max-age=100"), ("age", "101")] }
    response_time := 0
    now := 0 }

/-- A fresh policy: `max-age=100`, one second old. -/
def ttlFreshPolicy : CachePolicy :=
  { opts := defaultOptions
    req := { method := "GET", url := "/", headers := [] }
    res := { status := 200, headers := [("cache-control", "max-age=100")] }
    response_time := 0
    now := 1 }

/-- C3 counterexample: `time_to_live()` does not equal
`max_age() - age()` in signed seconds.  On a stale policy the spec formula
is negative while the function (an unsigned millisecond count per the
source signature) returns 0, and even on a fresh policy the function
returns milliseconds, not seconds. -/
theorem c3_counterexample :
    spec_time_to_live ttlStalePolicy < 0 ∧
    (time_to_live ttlStalePolicy : Int) ≠ spec_time_to_live ttlStalePolicy ∧
    (time_to_live ttlFreshPolicy : Int) ≠ spec_time_to_live ttlFreshPolicy := by
  refine ⟨by decide, by decide, by decide⟩

/-- C3 (amended): `time_to_live()` returns an unsigned count of
milliseconds equal to `1000 * max(0, max_age() - age())`; it is never
negative, and staleness is signalled by the value 0 (the age having
reached the lifetime). -/
theorem c3_ttl_milliseconds_clamped (p : CachePolicy) :
    (time_to_live p : Int) = 1000 * max 0 ((max_age p : Int) - (age p : Int)) ∧
    (time_to_live p = 0 ↔ is_stale p = true) := by
  constructor
  · unfold time_to_live
    rcases le_total ((age p : Int)) ((max_age p : Int)) with h | h
    · rw [max_eq_right (by omega : (0 : Int) ≤ (max_age p : Int) - (age p : Int))]
      omega
    · rw [max_eq_left (by omega : ((max_age p : Int) - (age p : Int)) ≤ (0 : Int))]
      omega
  · unfold time_to_live is_stale
    simp only [Nat.mul_eq_zero, decide_eq_true_eq]
    omega

/-! ## C2: s-maxage vs max-age resolution -/

/-- C2 counterexample: a response carrying both numeric `s-maxage` and
`max-age` together with `no-store`, under a non-shared policy.  The claim
requires `max_age() == 180`; the engine yields 0 because the unstorable
response forces a zero lifetime (the source test `test_no_store` pins
`max_age() == 0` for a `no-store` response). -/
def c2NoStorePolicy : CachePolicy :=
  { opts := { defaultOptions with shared := false }
    req := { method := "GET", url := "/", headers := [] }
    res := { status := 200,
             headers := [("cache-control", "s-maxage=60, max-age=180, no-store")] }
    response_time := 0
    now := 0 }

/-- C2 counterexample theorem: the response carries both directives with
numeric values and the policy is non-shared, yet `max_age()` is 0, not
the claimed `max-age` value 180. -/
theorem c2_counterexample :
    dirNat (response_directives c2NoStorePolicy) "s-maxage" = some 60 ∧
    dirNat (response_directives c2NoStorePolicy) "max-age" = some 180 ∧
    c2NoStorePolicy.opts.shared = false ∧
    max_age c2NoStorePolicy = 0 ∧
    max_age c2NoStorePolicy ≠ 180 := by
  refine ⟨by decide, by decide, by decide, by decide, by decide⟩

/-- C2 (amended): for a storable response carrying both numeric `s-maxage`
and `max-age`, with no `no-cache` directive and no `Vary: *`, `max_age()`
is the `s-maxage` value when the policy is shared and the `max-age` value
otherwise. -/
theorem c2_maxage_resolution (p : CachePolicy) (sv mv : Nat)
    (hs : dirNat (response_directives p) "s-maxage" = some sv)
    (hm : dirNat (response_directives p) "max-age" = some mv)
    (hstor : is_storable p = true)
    (hnc : hasDir (response_directives p) "no-cache" = false)
    (hv : getHeader p.res.headers "vary" ≠ some "*") :
    max_age p = if p.opts.shared then sv else mv := by
  have hveq : (getHeader p.res.headers "vary" == some "*") = false :=
    beq_eq_false_iff_ne.mpr hv
  unfold max_age
  rw [hstor, hnc, hveq]
  cases hsh : p.opts.shared <;> simp [hsh, hs, hm]

/-- A shared policy carrying both directives, for the C2 witness. -/
def c2SharedPolicy : CachePolicy :=
  { opts := defaultOptions
    req := { method := "GET", url := "/", headers := [] }
    res := { status := 200,
             headers := [("cache-control", "s-maxage=60, max-age=180")] }
    response_time := 0
    now := 0 }

/-- C2 witness: under the (shared) default options the resolution picks
`s-maxage`. -/
theorem c2_maxage_resolution_witness : max_age c2SharedPolicy = 60 := by
  have h := c2_maxage_resolution c2SharedPolicy 60 180 (by decide) (by decide)
    (by decide) (by decide) (by decide)
  simpa using h

/-! ## C4: the parser and value degradation -/

/-- A response whose `max-age` value is non-numeric and which carries no
other freshness information. -/
def badMaxAgePolicy : CachePolicy :=
  { opts := defaultOptions
    req := { method := "GET", url := "/", headers := [] }
    res := { status := 200, headers := [("cache-control", "max-age=golden")] }
    response_time := 0
    now := 0 }

/-- A response whose `max-age` value is non-numeric but whose `Expires`
and `Date` headers parse: the resolution cascades past the malformed
directive to the `Expires` rule. -/
def cascadePolicy : CachePolicy :=
  { opts := defaultOptions
    req := { method := "GET", url := "/", headers := [] }
    res := { status := 200,
             headers := [("cache-control", "max-age=golden"),
                         ("date", "23"), ("expires", "100")] }
    response_time := 0
    now := 0 }

/-- A response with an unparsable `Expires` header and nothing else. -/
def badExpiresPolicy : CachePolicy :=
  { opts := defaultOptions
    req := { method := "GET", url := "/", headers := [] }
    res := { status := 200, headers := [("expires", "yesterday!")] }
    response_time := 0
    now := 0 }

/-- A response with a malformed `Age` header, used for the C4 witness. -/
def bogusAgePolicy : CachePolicy :=
  { opts := defaultOptions
    req := { method := "GET", url := "/", headers := [] }
    res := { status := 200,
             headers := [("cache-control", "max-age=20"), ("age", "golden")] }
    response_time := 0
    now := 5 }

/-- C4: the Cache-Control parser is a total function that never errors:
absent or empty input yields an empty map, malformed comma/whitespace
syntax still parses the well-formed directives, and any directive value
that fails to parse (non-numeric `max-age`, unparsable `Expires`,
malformed `Age`) is treated as absent, cascading to the next freshness
rule instead of raising an error. -/
theorem c4_parser_never_fails :
    parseCacheControl none = [] ∧
    parseCacheControl (some "") = [] ∧
    parseCacheControl (some ",,,,max-age =  456      ,") = [("max-age", some "456")] ∧
    (∀ p : CachePolicy,
      (getHeader p.res.headers "age").bind (fun s => charsToNat (trimChars s.data)) = none →
      age p = p.now - p.response_time) ∧
    (is_storable badMaxAgePolicy = true ∧ max_age badMaxAgePolicy = 0) ∧
    max_age cascadePolicy = 77 ∧
    (is_storable badExpiresPolicy = true ∧ max_age badExpiresPolicy = 0) := by
  refine ⟨by decide, by decide, by decide, ?_, ⟨by decide, by decide⟩, by decide,
    by decide, by decide⟩
  intro p h
  unfold age
  rw [h]
  simp

/-- C4 witness: a malformed `Age: golden` header is treated as absent, so
the age is just the elapsed time. -/
theorem c4_parser_never_fails_witness :
    age bogusAgePolicy = bogusAgePolicy.now - bogusAgePolicy.response_time :=
  c4_parser_never_fails.2.2.2.1 bogusAgePolicy (by decide)

/-! ## C5: query purity and the mutating revalidation step -/

/-- Options with an exact-zero heuristic fraction, used for concrete
whole-policy comparisons. -/
def zeroHeuristicOptions : CacheOptions :=
  { shared := true
    ignore_cargo_cult := false
    trust_server_date := true
    cache_heuristic := 0
    immutable_min_time_to_live := 86400 }

/-- A stored policy about to be revalidated. -/
def c5StoredPolicy : CachePolicy :=
  { opts := zeroHeuristicOptions
    req := { method := "GET", url := "/", headers := [] }
    res := { status := 200,
             headers := [("cache-control", "max-age=111"), ("etag", "v1")] }
    response_time := 0
    now := 0 }

/-- The revalidation request for the C5 counterexample. -/
def c5NewRequest : Request := { method := "GET", url := "/", headers := [] }

/-- A 304 revalidation response for the C5 counterexample. -/
def c5NewResponse : Response := { status := 304, headers := [("etag", "v1")] }

/-- C5 counterexample: after a revalidation call the policy held by the
mutable receiver is no longer the pre-existing policy — the source's
`is_cached_response_valid(&mut self, ..)` updates the policy state in
place, so the old policy's state is not identical before and after. -/
theorem c5_counterexample :
    (is_cached_response_valid c5StoredPolicy c5NewRequest c5NewResponse).2 ≠ c5StoredPolicy := by
  decide

/-- C5 (amended): query operations are read-only (they are pure functions
of the policy value, mirroring the `&self` receivers in the source), but
the revalidation step `is_cached_response_valid` takes the policy by
mutable reference (`&mut self`, `src/lib.rs` line 184) and stores the
updated policy in place: modelled by state passing, the post-call state
equals the revalidated policy (options preserved, reception time
re-captured), not the original value. -/
theorem c5_revalidation_updates_in_place (p : CachePolicy) (nr : Request) (res : Response) :
    (is_cached_response_valid p nr res).2 = revalidated_policy p nr res ∧
    (is_cached_response_valid p nr res).1 = revalidation_valid p res ∧
    (revalidated_policy p nr res).opts = p.opts ∧
    (revalidated_policy p nr res).response_time = p.now ∧
    (revalidated_policy p nr res).req = nr := by
  refine ⟨rfl, rfl, ?_, ?_, ?_⟩ <;> (unfold revalidated_policy; split <;> rfl)

/-! ## C6: Vary-based request matching -/

/-- A policy whose response carries a given `Vary` value in front of the
remaining response headers. -/
def mkVaryPolicy (opts : CacheOptions) (req : Request) (status : Nat)
    (rest : List (String × String)) (rt nw : Nat) (v : String) : CachePolicy :=
  { opts := opts
    req := req
    res := { status := status, headers := ("vary", v) :: rest }
    response_time := rt
    now := nw }

/-- The `Vary` header of such a policy is the given value. -/
theorem getHeader_vary (opts : CacheOptions) (req : Request) (status : Nat)
    (rest : List (String × String)) (rt nw : Nat) (v : String) :
    getHeader (mkVaryPolicy opts req status rest rt nw v).res.headers "vary" = some v := by
  show getHeader (("vary", v) :: rest) "vary" = some v
  rw [getHeader_cons]
  simp [eqCI_self]

/-- `List.all` is invariant under permutation. -/
theorem perm_all_eq {α : Type} {l1 l2 : List α} (h : l1.Perm l2) (f : α → Bool) :
    l1.all f = l2.all f := by
  rw [Bool.eq_iff_iff]
  simp only [List.all_eq_true]
  exact ⟨fun ha x hx => ha x (h.mem_iff.mpr hx), fun ha x hx => ha x (h.mem_iff.mp hx)⟩

/-- A response with `Vary: *` has a zero freshness lifetime. -/
theorem max_age_vary_star (p : CachePolicy)
    (hv : getHeader p.res.headers "vary" = some "*") : max_age p = 0 := by
  unfold max_age
  rw [hv]
  cases hb : (!(is_storable p) || hasDir (response_directives p) "no-cache") <;> simp [hb]

/-- C6: if the stored response's `Vary` is `*`, no request ever matches and
the response is stale regardless of elapsed time; for a `Vary` listing
fields, a request matches iff every listed header agrees
(present-or-absent identically, equal value when present) between the
original and new request, independent of the order the fields are listed
in and tolerant of whitespace (the parsed field list is what matters, and
any two permutation-equivalent `Vary` values give the same verdict). -/
theorem c6_vary_matching (opts : CacheOptions) (req : Request) (status : Nat)
    (rest : List (String × String)) (rt nw : Nat) (newReq : Request) (v1 v2 : String)
    (h1 : v1 ≠ "*") (h2 : v2 ≠ "*") (hperm : (parseVary v1).Perm (parseVary v2)) :
    (vary_matches (mkVaryPolicy opts req status rest rt nw "*") newReq = false ∧
     max_age (mkVaryPolicy opts req status rest rt nw "*") = 0 ∧
     is_stale (mkVaryPolicy opts req status rest rt nw "*") = true) ∧
    (vary_matches (mkVaryPolicy opts req status rest rt nw v1) newReq = true ↔
      ∀ name ∈ parseVary v1,
        getHeader newReq.headers name = getHeader req.headers name) ∧
    vary_matches (mkVaryPolicy opts req status rest rt nw v1) newReq =
      vary_matches (mkVaryPolicy opts req status rest rt nw v2) newReq := by
  have hg1 := getHeader_vary opts req status rest rt nw v1
  have hg2 := getHeader_vary opts req status rest rt nw v2
  have hgs := getHeader_vary opts req status rest rt nw "*"
  refine ⟨⟨?_, ?_, ?_⟩, ?_, ?_⟩
  · unfold vary_matches
    rw [hgs]
    simp
  · exact max_age_vary_star _ hgs
  · have h0 := max_age_vary_star _ hgs
    simp [is_stale, h0]
  · unfold vary_matches
    rw [hg1]
    have hne : (v1 == "*") = false := by simp [h1]
    simp [hne, mkVaryPolicy, List.all_eq_true]
  · unfold vary_matches
    rw [hg1, hg2]
    have hne1 : (v1 == "*") = false := by simp [h1]
    have hne2 : (v2 == "*") = false := by simp [h2]
    simp only [mkVaryPolicy, hne1, hne2, Bool.false_eq_true, if_false]
    exact perm_all_eq hperm _

/-- The original request of the C6 witness. -/
def c6Request : Request :=
  { method := "GET", url := "/", headers := [("weather", "nice"), ("sun", "shining")] }

/-- The new request of the C6 witness. -/
def c6NewRequest : Request :=
  { method := "GET", url := "/", headers := [("sun", "shining"), ("weather", "nice")] }

/-- C6 witness: `Vary: *` never matches, and the whitespace-laden
`"weather, sun"` behaves exactly like `"sun,weather"` for the new
request. -/
theorem c6_vary_matching_witness :
    vary_matches (mkVaryPolicy defaultOptions c6Request 200 [] 0 0 "*") c6NewRequest = false ∧
    vary_matches (mkVaryPolicy defaultOptions c6Request 200 [] 0 0 "weather, sun") c6NewRequest =
      vary_matches (mkVaryPolicy defaultOptions c6Request 200 [] 0 0 "sun,weather") c6NewRequest := by
  have h := c6_vary_matching defaultOptions c6Request 200 [] 0 0 c6NewRequest
    "weather, sun" "sun,weather" (by decide) (by decide) (by decide)
  exact ⟨h.1.1, h.2.2⟩

/-! ## C7: the revalidation header merge -/

/-- `find?` commutes with a filter that keeps everything satisfying the
search predicate. -/
theorem find?_filter_of_imp {α : Type} (l : List α) (p f : α → Bool)
    (h : ∀ a, p a = true → f a = true) : (l.filter f).find? p = l.find? p := by
  induction l with
  | nil => rfl
  | cons a l ih =>
    cases hf : f a
    · have hp : p a = false := by
        cases hp : p a
        · rfl
        · exact absurd (h a hp) (by simp [hf])
      simp [List.filter_cons, hf, List.find?_cons, hp, ih]
    · cases hp : p a
      · simp [List.filter_cons, hf, List.find?_cons, hp, ih]
      · simp [List.filter_cons, hf, List.find?_cons, hp]

/-- `find?` fails on a filter that drops everything satisfying the search
predicate. -/
theorem find?_filter_none {α : Type} (l : List α) (p f : α → Bool)
    (h : ∀ a, p a = true → f a = false) : (l.filter f).find? p = none := by
  induction l with
  | nil => rfl
  | cons a l ih =>
    cases hf : f a
    · simp [List.filter_cons, hf, ih]
    · have hp : p a = false := by
        cases hp : p a
        · rfl
        · exact absurd (h a hp) (by simp [hf])
      simp [List.filter_cons, hf, List.find?_cons, hp, ih]

/-- Per-name description of the revalidation merge: excluded names are
looked up in the old headers, all other names in the new ones. -/
theorem getHeader_mergedHeaders (o n : List (String × String)) (name : String) :
    getHeader (mergedHeaders o n) name =
      if lowerStr name ∈ EXCLUDED_FROM_REVALIDATION_UPDATE
      then getHeader o name else getHeader n name := by
  unfold getHeader mergedHeaders
  by_cases hm : lowerStr name ∈ EXCLUDED_FROM_REVALIDATION_UPDATE
  · rw [if_pos hm, List.find?_append]
    rw [find?_filter_none n _ _
      (fun a ha => by rw [lowerStr_eq_of_eqCI ha]; simp [hm])]
    rw [find?_filter_of_imp o _ _
      (fun a ha => by rw [lowerStr_eq_of_eqCI ha]; simp [hm])]
    rw [Option.none_or]
  · rw [if_neg hm, List.find?_append]
    rw [find?_filter_of_imp n _ _
      (fun a ha => by rw [lowerStr_eq_of_eqCI ha]; simp [hm])]
    rw [find?_filter_none o _ _
      (fun a ha => by rw [lowerStr_eq_of_eqCI ha]; simp [hm])]
    rw [Option.or_none]

/-- C7: when a revalidation response is judged valid, the merged policy's
headers are the new response's headers except that exactly the four
excluded-from-revalidation-update headers (`content-length`,
`content-encoding`, `transfer-encoding`, `content-range`) come from the
old stored response; when it is judged invalid, the new response fully
replaces the old one with no header merge. -/
theorem c7_revalidation_merge (p : CachePolicy) (nr : Request) (res : Response) (name : String) :
    (∀ s : String, s ∈ EXCLUDED_FROM_REVALIDATION_UPDATE ↔
      (s = "content-length" ∨ s = "content-encoding" ∨ s = "transfer-encoding" ∨
       s = "content-range")) ∧
    (revalidation_valid p res = true →
      getHeader (revalidated_policy p nr res).res.headers name =
        if lowerStr name ∈ EXCLUDED_FROM_REVALIDATION_UPDATE
        then getHeader p.res.headers name
        else getHeader res.headers name) ∧
    (revalidation_valid p res = false → (revalidated_policy p nr res).res = res) := by
  refine ⟨?_, ?_, ?_⟩
  · intro s
    simp [EXCLUDED_FROM_REVALIDATION_UPDATE]
  · intro hv
    unfold revalidated_policy
    rw [if_pos hv]
    exact getHeader_mergedHeaders _ _ _
  · intro hv
    unfold revalidated_policy
    rw [if_neg (by simp [hv])]

/-- The stored policy for the C7 witness: it has an `ETag` validator and a
`content-length` describing the stored body. -/
def c7OldPolicy : CachePolicy :=
  { opts := defaultOptions
    req := { method := "GET", url := "/", headers := [] }
    res := { status := 200,
             headers := [("etag", "v1"), ("content-length", "5"), ("x-old", "1")] }
    response_time := 0
    now := 0 }

/-- The revalidation request of the C7 witness. -/
def c7Request : Request := { method := "GET", url := "/", headers := [] }

/-- A matching 304 revalidation response carrying a bogus
`content-length`. -/
def c7Valid304 : Response :=
  { status := 304, headers := [("etag", "v1"), ("content-length", "0"), ("x-new", "2")] }

/-- A full response with no matching validator. -/
def c7Invalid200 : Response :=
  { status := 200, headers := [("content-length", "9")] }

/-- C7 witness: on the valid 304 the merged `content-length` is the old
stored one while a non-excluded header comes from the new response; on the
invalid response the new response replaces the old entirely. -/
theorem c7_revalidation_merge_witness :
    getHeader (revalidated_policy c7OldPolicy c7Request c7Valid304).res.headers "content-length" =
      getHeader c7OldPolicy.res.headers "content-length" ∧
    getHeader (revalidated_policy c7OldPolicy c7Request c7Valid304).res.headers "x-new" =
      getHeader c7Valid304.headers "x-new" ∧
    (revalidated_policy c7OldPolicy c7Request c7Invalid200).res = c7Invalid200 := by
  have h1 := (c7_revalidation_merge c7OldPolicy c7Request c7Valid304 "content-length").2.1
    (by decide)
  have h2 := (c7_revalidation_merge c7OldPolicy c7Request c7Valid304 "x-new").2.1
    (by decide)
  have h3 := (c7_revalidation_merge c7OldPolicy c7Request c7Invalid200 "x-new").2.2
    (by decide)
  rw [if_pos (by decide)] at h1
  rw [if_neg (by decide)] at h2
  exact ⟨h1, h2, h3⟩

/-! ## C10: the hop-by-hop header set and the Date removal -/

/-- Case-insensitive equality is symmetric. -/
theorem eqCI_comm (a b : String) : eqCI a b = eqCI b a := by
  unfold eqCI
  rw [Bool.eq_iff_iff]
  constructor <;> (intro h; exact beq_iff_eq.mpr (beq_iff_eq.mp h).symm)

/-- Every entry of the warning-filtered list keeps the name of a
non-hop-by-hop entry of the stored response headers. -/
theorem warningFiltered_names (p : CachePolicy) {x : String × String}
    (hx : x ∈ warningFiltered p) : lowerStr x.1 ∉ HOP_BY_HOP_HEADERS := by
  obtain ⟨y, hy, hfy⟩ := List.mem_filterMap.mp hx
  have hyb := List.mem_filter.mp hy
  have hx1 : x.1 = y.1 := by
    by_cases hw : eqCI y.1 "warning" = true
    · rw [if_pos hw] at hfy
      cases hws : filterWarnings y.2 with
      | nil => rw [hws] at hfy; cases hfy
      | cons w ws =>
        rw [hws] at hfy
        cases hfy
        rfl
    · rw [if_neg hw] at hfy
      cases hfy
      rfl
  intro hmem
  rw [hx1] at hmem
  simp [hmem] at hyb

/-- C10: the engine's static hop-by-hop header set is exactly
{date, connection, keep-alive, proxy-authentication, proxy-authorization,
te, trailer, transfer-encoding, upgrade}; consequently
`update_response_headers` removes every header whose name is in the set
(other than the freshly recomputed `Age`), and in particular the `Date`
header is absent from every filtered response served from the cache. -/
theorem c10_hop_by_hop (p : CachePolicy) (name : String)
    (hmem : lowerStr name ∈ HOP_BY_HOP_HEADERS)
    (hage : eqCI name "age" = false) :
    (∀ s : String, s ∈ HOP_BY_HOP_HEADERS ↔
      (s = "date" ∨ s = "connection" ∨ s = "keep-alive" ∨
       s = "proxy-authentication" ∨ s = "proxy-authorization" ∨ s = "te" ∨
       s = "trailer" ∨ s = "transfer-encoding" ∨ s = "upgrade")) ∧
    getHeader (update_response_headers p) name = none ∧
    (∀ q : CachePolicy, getHeader (update_response_headers q) "date" = none) := by
  have key : ∀ q : CachePolicy, ∀ nm : String,
      lowerStr nm ∈ HOP_BY_HOP_HEADERS → eqCI nm "age" = false →
      getHeader (update_response_headers q) nm = none := by
    intro q nm hm ha
    unfold update_response_headers setHeader
    rw [getHeader_cons]
    rw [if_neg (by rw [eqCI_comm]; simp [ha])]
    unfold getHeader
    rw [(List.find?_eq_none).mpr ?_]
    · rfl
    · intro x hx hpx
      have hx2 : x ∈ warningFiltered q := (List.mem_filter.mp hx).1
      have hnames := warningFiltered_names q hx2
      have heq := lowerStr_eq_of_eqCI hpx
      rw [heq] at hnames
      exact hnames hm
  refine ⟨?_, key p name hmem hage, fun q => key q "date" (by decide) (by decide)⟩
  intro s
  simp [HOP_BY_HOP_HEADERS]

/-- C10 witness: the `Date` and `Connection` headers are stripped from a
concrete served response. -/
theorem c10_hop_by_hop_witness :
    getHeader (update_response_headers badExpiresPolicy) "connection" = none ∧
    getHeader (update_response_headers badExpiresPolicy) "date" = none := by
  have h := c10_hop_by_hop badExpiresPolicy "connection" (by decide) (by decide)
  exact ⟨h.2.1, h.2.2 badExpiresPolicy⟩

/-! ## C8: snapshot round-trip -/

/-- The digit encoder and decoder agree on single digits. -/
theorem digitVal_ofNat (r : Nat) (h : r < 10) :
    digitVal (Char.ofNat (48 + r)) = some r := by
  interval_cases r <;> decide

/-- Evaluating the digit expansion of a number gives the number back. -/
theorem valRev_natDigitsRev (n : Nat) : valRev (natDigitsRev n) = some n := by
  induction n using Nat.strong_induction_on with
  | _ n ih =>
    match n with
    | 0 => simp [natDigitsRev, valRev]
    | m + 1 =>
      rw [natDigitsRev]
      have hd : digitVal (Char.ofNat (48 + (m + 1) % 10)) = some ((m + 1) % 10) :=
        digitVal_ofNat _ (Nat.mod_lt _ (by decide))
      have hr := ih ((m + 1) / 10) (Nat.div_lt_self (Nat.succ_pos m) (by decide))
      simp [valRev, hd, hr]
      omega

/-- Decimal round-trip for the snapshot codec. -/
theorem natParse_natRepr (n : Nat) : natParse (natRepr n) = some n := by
  unfold natParse natRepr
  rw [show (String.mk (natDigitsRev n).reverse).data = (natDigitsRev n).reverse from rfl]
  rw [List.reverse_reverse]
  exact valRev_natDigitsRev n

/-- Boolean round-trip for the snapshot codec. -/
theorem decBool_encBool (b : Bool) : decBool (encBool b) = b := by
  cases b <;> decide

/-- Header-list round-trip for the snapshot codec. -/
theorem decodeHeaders_encode (hs rest : List (String × String)) :
    decodeHeaders (encodeHeadersInto hs rest) = some (hs, rest) := by
  induction hs with
  | nil =>
    show decodeHeaders (("e", "") :: rest) = some ([], rest)
    rw [decodeHeaders.eq_def]
    simp
  | cons kv hs ih =>
    show decodeHeaders (("n", kv.1) :: ("v", kv.2) :: encodeHeadersInto hs rest) = _
    rw [decodeHeaders.eq_def]
    simp [ih]

/-- Casting the absolute value of the numerator back to the rationals. -/
theorem cast_natAbs_num (q : ℚ) :
    ((q.num.natAbs : ℕ) : ℚ) = (if q.num < 0 then -((q.num : ℤ) : ℚ) else ((q.num : ℤ) : ℚ)) := by
  rcases lt_or_ge q.num 0 with h | h
  · rw [if_pos h]
    have habs : ((q.num.natAbs : ℕ) : ℤ) = -q.num := Int.ofNat_natAbs_of_nonpos (le_of_lt h)
    calc ((q.num.natAbs : ℕ) : ℚ) = (((q.num.natAbs : ℕ) : ℤ) : ℚ) := by
          rw [Int.cast_natCast]
      _ = ((-q.num : ℤ) : ℚ) := by rw [habs]
      _ = -((q.num : ℤ) : ℚ) := by rw [Int.cast_neg]
  · rw [if_neg (not_lt.mpr h)]
    have habs : ((q.num.natAbs : ℕ) : ℤ) = q.num := Int.natAbs_of_nonneg h
    calc ((q.num.natAbs : ℕ) : ℚ) = (((q.num.natAbs : ℕ) : ℤ) : ℚ) := by
          rw [Int.cast_natCast]
      _ = ((q.num : ℤ) : ℚ) := by rw [habs]

/-- Rational round-trip for the snapshot codec: sign, absolute numerator
and denominator reconstruct the stored heuristic fraction. -/
theorem rat_reconstruct (q : ℚ) :
    (if q < 0 then -((q.num.natAbs : ℚ)) else (q.num.natAbs : ℚ)) / (q.den : ℚ) = q := by
  rcases lt_or_ge q.num 0 with h | h
  · rw [if_pos (Rat.num_neg.mp h), cast_natAbs_num q, if_pos h, neg_neg]
    exact Rat.num_div_den q
  · rw [if_neg (fun hq => absurd (Rat.num_neg.mpr hq) (not_lt.mpr h)),
        cast_natAbs_num q, if_neg (not_lt.mpr h)]
    exact Rat.num_div_den q

/-- Reconstructing a policy from its snapshot gives the policy back. -/
theorem from_snapshot_to_snapshot (p : CachePolicy) :
    from_snapshot (to_snapshot p) = some p := by
  unfold to_snapshot from_snapshot
  simp [natParse_natRepr, decodeHeaders_encode, decBool_encBool, rat_reconstruct]

/-- C8: round-tripping a policy through persistence
(`from_snapshot(policy.to_snapshot())`) reconstructs the policy, and in
particular produces identical `is_storable()`, `max_age()` and
`time_to_live()` results. -/
theorem c8_snapshot_round_trip (p : CachePolicy) :
    from_snapshot (to_snapshot p) = some p ∧
    (from_snapshot (to_snapshot p)).map is_storable = some (is_storable p) ∧
    (from_snapshot (to_snapshot p)).map max_age = some (max_age p) ∧
    (from_snapshot (to_snapshot p)).map time_to_live = some (time_to_live p) := by
  have h := from_snapshot_to_snapshot p
  exact ⟨h, by rw [h]; rfl, by rw [h]; rfl, by rw [h]; rfl⟩

end HttpCache
